import Mathlib

/-!
Verification of the Neptino maintenance-script repository.

The scripts operate on text: a document is a list of lines (each a list of
characters, as produced by Python `readlines`), or a flat list of characters
(as produced by Python `read`).  All definitions below are shallow embeddings
of the Python sources:

  * `src/scripts/split-canvas-projection.py`
  * `src/scripts/split-toolbar.py`
  * `src/scripts/split-template-blueprint.py`
  * `src/scripts/update-route.py`
  * `src/update_nav_classes.py`
  * `src/cleanup-html-simple.py`
  * `src/scripts/rebuild-isced-data.py`

Machine text is modelled as `List Char`; file contents read in Python text
mode have universal-newline translation already applied, so documents contain
plain `'\n'` line terminators.
-/

/-! ## Generic text helpers (Python `in`, `startswith`, `str.find`, slices) -/

/-- Python whitespace class used by `str.strip()` and the regex class `\s`
(ASCII range; the scripts only process ASCII control/space characters). -/
def pyIsSpace (c : Char) : Bool :=
  c == ' ' || c == '\t' || c == '\n' || c == '\r' || c == '\x0b' || c == '\x0c'

/-- `hasPre pat s` is Python `s.startswith(pat)`. -/
def hasPre : List Char → List Char → Bool
  | [], _ => true
  | _ :: _, [] => false
  | a :: as_, b :: bs => a == b && hasPre as_ bs

/-- `hasSub pat s` is Python `pat in s` (substring containment). -/
def hasSub (pat : List Char) : List Char → Bool
  | [] => hasPre pat []
  | s@(_ :: r) => hasPre pat s || hasSub pat r

/-- `hasSuf pat s` is Python `s.endswith(pat)`. -/
def hasSuf (pat s : List Char) : Bool :=
  hasPre pat.reverse s.reverse

/-- Index of the leftmost occurrence of `pat` in `s` (Python `s.find(pat)`,
with absence reported as `none` instead of `-1`). -/
def idxOf (pat : List Char) : List Char → Option Nat
  | [] => if hasPre pat [] then some 0 else none
  | s@(_ :: r) => if hasPre pat s then some 0 else (idxOf pat r).map (· + 1)

/-- Python `s.lstrip()`. -/
def lstripWs (l : List Char) : List Char := l.dropWhile pyIsSpace

/-- Python `s.rstrip()`. -/
def rstripWs (l : List Char) : List Char := (l.reverse.dropWhile pyIsSpace).reverse

/-- Python `s.strip()`. -/
def pyStrip (l : List Char) : List Char := rstripWs (lstripWs l)

/-- Python slice `lines[a:b]` (half-open, clamped to the list length). -/
def pySlice (a b : Nat) (l : List α) : List α := (l.drop a).take (b - a)

/-- Concatenation of a list of lines, Python `"".join(lines)`. -/
def joinAll (ls : List (List Char)) : List Char := ls.flatten

/-! ## BoundaryLocator: first-match line search

Each split script locates boundaries by a linear scan from the top of the
document, returning the first index whose line satisfies the marker
predicate.  `findFirst` is that shared scan; the scripts instantiate it with
`text in line` (split-toolbar / split-template-blueprint `find_line`) or
`line.strip().startswith(text)` (split-canvas-projection). -/

/-- First index whose element satisfies `p`; `none` when no line matches
(the scripts then report the boundary as not found: `-1` in split-toolbar,
`ValueError` in split-template-blueprint, `sys.exit(1)` in
split-canvas-projection). -/
def findFirst {α : Type} (p : α → Bool) : List α → Option Nat
  | [] => none
  | a :: l => if p a then some 0 else (findFirst p l).map (· + 1)

/-- `find_line` of split-toolbar (lines 15-19) and split-template-blueprint
(lines 21-26): first line containing `text` as a substring. -/
def find_line (text : List Char) (lines : List (List Char)) : Option Nat :=
  findFirst (fun l => hasSub text l) lines

/-- The boundary scan of split-canvas-projection (lines 10-14): first line
whose stripped content starts with "function estimateSessionPages". -/
def markerEstimate : List Char := "function estimateSessionPages".toList

/-- `boundary_line` of split-canvas-projection. -/
def boundary_line (lines : List (List Char)) : Option Nat :=
  findFirst (fun l => hasPre markerEstimate (pyStrip l)) lines

/-! ### First-match lemmas -/

theorem findFirst_spec {α : Type} (p : α → Bool) (l : List α) (i : Nat)
    (h : findFirst p l = some i) :
    ∃ a, l[i]? = some a ∧ p a = true ∧
      ∀ j, j < i → ∀ b, l[j]? = some b → p b = false := by
  induction l generalizing i with
  | nil => simp [findFirst] at h
  | cons x xs ih =>
    by_cases hx : p x = true
    · simp [findFirst, hx] at h
      subst h
      exact ⟨x, by simp, hx, fun j hj => by omega⟩
    · simp only [findFirst, Bool.not_eq_true] at hx
      simp [findFirst, hx] at h
      obtain ⟨k, hk, rfl⟩ := h
      obtain ⟨a, ha, hpa, hmin⟩ := ih k hk
      refine ⟨a, by simpa using ha, hpa, ?_⟩
      intro j hj b hb
      cases j with
      | zero => simp at hb; simpa [hb] using hx
      | succ j' =>
        exact hmin j' (by omega) b (by simpa using hb)

theorem findFirst_le_of_match {α : Type} (p : α → Bool) (l : List α) (i : Nat)
    (a : α) (ha : l[i]? = some a) (hpa : p a = true) :
    ∃ k, findFirst p l = some k ∧ k ≤ i := by
  induction l generalizing i with
  | nil => simp at ha
  | cons x xs ih =>
    by_cases hx : p x = true
    · exact ⟨0, by simp [findFirst, hx], Nat.zero_le _⟩
    · simp only [Bool.not_eq_true] at hx
      cases i with
      | zero => simp at ha; rw [ha] at hx; simp [hx] at hpa
      | succ i' =>
        obtain ⟨k, hk, hki⟩ := ih i' (by simpa using ha)
        exact ⟨k + 1, by simp [findFirst, hx, hk], by omega⟩

theorem findFirst_lt_length {α : Type} (p : α → Bool) (l : List α) (i : Nat)
    (h : findFirst p l = some i) : i < l.length := by
  obtain ⟨a, ha, -, -⟩ := findFirst_spec p l i h
  exact (List.getElem?_eq_some.mp ha).1

/-! ## Partitioner: the canvas-projection split

split-canvas-projection.py, lines 22-46.  The document is cut at the
boundary: `projection_init` is the raw slice `lines[:boundary_line]`
(line 24), which is then stripped of trailing blank lines (lines 26-27) and
given a single trailing blank line (line 28); `projector_lines` is
`lines[boundary_line:]` (line 31). -/

/-- Line 24: `projection_lines = lines[:boundary_line]`. -/
def projection_init (lines : List (List Char)) (b : Nat) : List (List Char) :=
  lines.take b

/-- Lines 26-27: `while projection_lines and projection_lines[-1].strip() == "":
projection_lines.pop()`. -/
def dropTrailingBlankLines (ls : List (List Char)) : List (List Char) :=
  (ls.reverse.dropWhile (fun l => pyStrip l == [])).reverse

/-- Lines 24-28: the emitted first segment, trailing blanks trimmed and a
single newline appended. -/
def projection_lines (lines : List (List Char)) (b : Nat) : List (List Char) :=
  dropTrailingBlankLines (projection_init lines b) ++ [['\n']]

/-- Line 31: `projector_lines = lines[boundary_line:]`. -/
def projector_lines (lines : List (List Char)) (b : Nat) : List (List Char) :=
  lines.drop b

/-! ## Partitioner: the toolbar split

split-toolbar.py, lines 36-58.  `options_lines = lines[opt:tool]` (line 38),
`kept_start = lines[:opt]` (line 57), `kept_end = lines[tool:]` (line 58). -/

/-- Line 38: `options_lines = lines[opt_primitives_start:tool_button_start]`. -/
def options_lines (lines : List (List Char)) (a t : Nat) : List (List Char) :=
  pySlice a t lines

/-- Line 57: `kept_start = lines[:opt_primitives_start]`. -/
def kept_start (lines : List (List Char)) (a : Nat) : List (List Char) :=
  lines.take a

/-- Line 58: `kept_end = lines[tool_button_start:]`. -/
def kept_end (lines : List (List Char)) (t : Nat) : List (List Char) :=
  lines.drop t

/-! ## Partitioner: the template-blueprint split

split-template-blueprint.py, lines 42-56: `extract_lines(start, end)` returns
`"".join(all_lines[start:end])`; the five section blocks plus the original
header and the props block are consecutive slices of `all_lines`. -/

/-- Lines 42-43: `extract_lines(start, end) = "".join(all_lines[start:end])`. -/
def extract_lines (all_lines : List (List Char)) (start stop : Nat) : List Char :=
  joinAll (pySlice start stop all_lines)

/-! ### Slice-totality lemmas -/

theorem pySlice_append (l : List α) (a b c : Nat) (hab : a ≤ b) (hbc : b ≤ c) :
    pySlice a b l ++ pySlice b c l = pySlice a c l := by
  unfold pySlice
  have h1 : c - a = (b - a) + (c - b) := by omega
  rw [h1, List.take_add, List.drop_drop]
  have h2 : a + (b - a) = b := by omega
  rw [h2]

theorem pySlice_zero (l : List α) (b : Nat) : pySlice 0 b l = l.take b := by
  simp [pySlice]

theorem pySlice_full (l : List α) : pySlice 0 l.length l = l := by
  simp [pySlice]

theorem extract_append (all_lines : List (List Char)) (a b c : Nat)
    (hab : a ≤ b) (hbc : b ≤ c) :
    extract_lines all_lines a b ++ extract_lines all_lines b c =
      extract_lines all_lines a c := by
  unfold extract_lines joinAll
  rw [← List.flatten_append, pySlice_append all_lines a b c hab hbc]

/-! ## Claim C7: first-match location -/

/-- C7 (confirmed): for every document and every marker, locating the marker
scans the document lines from the top and returns the index of the first line
whose content satisfies the marker predicate — both for `find_line`
(substring markers, split-toolbar / split-template-blueprint) and for the
strip-startswith scan of split-canvas-projection. -/
theorem c7_first_match_location (text : List Char) (lines : List (List Char))
    (i b : Nat) :
    (find_line text lines = some i →
      ∃ l, lines[i]? = some l ∧ hasSub text l = true ∧
        ∀ j, j < i → ∀ l', lines[j]? = some l' → hasSub text l' = false) ∧
    (boundary_line lines = some b →
      ∃ l, lines[b]? = some l ∧ hasPre markerEstimate (pyStrip l) = true ∧
        ∀ j, j < b → ∀ l', lines[j]? = some l' →
          hasPre markerEstimate (pyStrip l') = false) := by
  constructor
  · intro h
    exact findFirst_spec _ lines i h
  · intro h
    exact findFirst_spec _ lines b h

/-- C7 witness: on a concrete three-line document both locators return the
first (and only) matching index,, with the first-match property instantiated. -/
theorem c7_first_match_location_witness :
    (∃ l, (["const x = 1\n".toList,
            "function estimateSessionPages() \x7b\n".toList,
            "export function ToolBar() \x7b\n".toList])[2]? = some l ∧
       hasSub ("function ToolBar()".toList) l = true ∧
       ∀ j, j < 2 → ∀ l', (["const x = 1\n".toList,
            "function estimateSessionPages() \x7b\n".toList,
            "export function ToolBar() \x7b\n".toList])[j]? = some l' →
         hasSub ("function ToolBar()".toList) l' = false) ∧
    (∃ l, (["const x = 1\n".toList,
            "function estimateSessionPages() \x7b\n".toList,
            "export function ToolBar() \x7b\n".toList])[1]? = some l ∧
       hasPre markerEstimate (pyStrip l) = true ∧
       ∀ j, j < 1 → ∀ l', (["const x = 1\n".toList,
            "function estimateSessionPages() \x7b\n".toList,
            "export function ToolBar() \x7b\n".toList])[j]? = some l' →
         hasPre markerEstimate (pyStrip l') = false) := by
  refine ⟨?_, ?_⟩
  · exact (c7_first_match_location ("function ToolBar()".toList) _ 2 1).1 (by decide)
  · exact (c7_first_match_location ("function ToolBar()".toList) _ 2 1).2 (by decide)

/-! ## Claim C2: boundary uniqueness is not enforced -/

/-- C2 counterexample: a document whose two lines both contain the marker
text.  The claim states locating the marker must fail with
`AmbiguousBoundary`; instead `find_line` succeeds and returns the first
candidate (index 0). -/
theorem c2_counterexample :
    hasSub ("function ToolButton<".toList)
        ("function ToolButton<A>(\n".toList) = true ∧
    find_line ("function ToolButton<".toList)
        (["function ToolButton<A>(\n".toList,
          "function ToolButton<A>(\n".toList]) = some 0 := by
  constructor
  · decide
  · decide

/-- C2 (corrected): when two distinct lines both match a marker, the locator
does not fail: it returns an index no later than the first matching line,
silently selecting the earliest candidate.  No ambiguity detection exists in
the code. -/
theorem c2_amended_first_candidate (text : List Char)
    (lines : List (List Char)) (i j : Nat) (li lj : List Char)
    (hij : i < j)
    (hi : lines[i]? = some li) (hpi : hasSub text li = true)
    (hj : lines[j]? = some lj) (hpj : hasSub text lj = true) :
    ∃ k, find_line text lines = some k ∧ k ≤ i := by
  exact findFirst_le_of_match _ lines i li hi hpi

/-- C2 amended-claim witness: on the concrete duplicated-marker document the
locator returns an index at most 0, i.e. the first candidate. -/
theorem c2_amended_first_candidate_witness :
    ∃ k, find_line ("function ToolButton<".toList)
        (["function ToolButton<A>(\n".toList,
          "function ToolButton<A>(\n".toList]) = some k ∧ k ≤ 0 := by
  exact c2_amended_first_candidate ("function ToolButton<".toList) _ 0 1
    ("function ToolButton<A>(\n".toList) ("function ToolButton<A>(\n".toList)
    (by omega) (by decide) (by decide) (by decide) (by decide)

/-! ## Claim C6: boundary ownership -/

/-- C6 (confirmed): a resolved segment-start boundary at offset `b` cuts the
document into the half-open line ranges `[0, b)` and `[b, n)`: the marker
line is the first line of the segment it opens, every projector line `i` is
original line `b + i`, every kept line `i < b` is original line `i`, and the
two ranges concatenate back to the document, so the boundary line is neither
duplicated nor dropped.  The same ownership holds for the two inner
boundaries of the toolbar split. -/
theorem c6_boundary_ownership (lines : List (List Char)) (b a t : Nat) :
    (boundary_line lines = some b →
      projection_init lines b ++ projector_lines lines b = lines ∧
      (projection_init lines b).length = b ∧
      (projector_lines lines b).head? = lines[b]? ∧
      (∀ i, (projector_lines lines b)[i]? = lines[b + i]?) ∧
      (∀ i, i < b → (projection_init lines b)[i]? = lines[i]?)) ∧
    (a < t → t ≤ lines.length →
      (options_lines lines a t).head? = lines[a]? ∧
      (kept_end lines t).head? = lines[t]? ∧
      (∀ i, i < t - a → (options_lines lines a t)[i]? = lines[a + i]?) ∧
      (kept_start lines a).length = a) := by
  constructor
  · intro h
    have hb : b < lines.length := findFirst_lt_length _ lines b h
    refine ⟨List.take_append_drop b lines, ?_, ?_, ?_, ?_⟩
    · simp [projection_init, List.length_take]; omega
    · simp [projector_lines, List.head?_drop]
    · intro i
      simp [projector_lines, List.getElem?_drop]
    · intro i hi
      simp [projection_init, List.getElem?_take, hi]
  · intro hat ht
    refine ⟨?_, ?_, ?_, ?_⟩
    · have : (0 : Nat) < t - a := by omega
      simp only [options_lines, pySlice, List.head?_take, List.head?_drop]
      rw [if_neg (by omega)]
    · simp [kept_end, List.head?_drop]
    · intro i hi
      simp [options_lines, pySlice, List.getElem?_take, hi, List.getElem?_drop]
    · simp [kept_start, List.length_take]; omega

/-- C6 witness: ownership instantiated on a concrete four-line document with
the canvas boundary at line 2 and toolbar cut points 1 and 3. -/
theorem c6_boundary_ownership_witness :
    (projection_init (["a\n".toList, "b\n".toList,
        "function estimateSessionPages() \x7b\n".toList, "\x7d\n".toList]) 2 ++
      projector_lines (["a\n".toList, "b\n".toList,
        "function estimateSessionPages() \x7b\n".toList, "\x7d\n".toList]) 2 =
      (["a\n".toList, "b\n".toList,
        "function estimateSessionPages() \x7b\n".toList, "\x7d\n".toList]) ∧
     (projection_init (["a\n".toList, "b\n".toList,
        "function estimateSessionPages() \x7b\n".toList, "\x7d\n".toList]) 2).length = 2 ∧
     (projector_lines (["a\n".toList, "b\n".toList,
        "function estimateSessionPages() \x7b\n".toList, "\x7d\n".toList]) 2).head? =
      (["a\n".toList, "b\n".toList,
        "function estimateSessionPages() \x7b\n".toList, "\x7d\n".toList])[2]? ∧
     (∀ i, (projector_lines (["a\n".toList, "b\n".toList,
        "function estimateSessionPages() \x7b\n".toList, "\x7d\n".toList]) 2)[i]? =
      (["a\n".toList, "b\n".toList,
        "function estimateSessionPages() \x7b\n".toList, "\x7d\n".toList])[2 + i]?) ∧
     (∀ i, i < 2 → (projection_init (["a\n".toList, "b\n".toList,
        "function estimateSessionPages() \x7b\n".toList, "\x7d\n".toList]) 2)[i]? =
      (["a\n".toList, "b\n".toList,
        "function estimateSessionPages() \x7b\n".toList, "\x7d\n".toList])[i]?)) ∧
    ((options_lines (["a\n".toList, "b\n".toList,
        "function estimateSessionPages() \x7b\n".toList, "\x7d\n".toList]) 1 3).head? =
      (["a\n".toList, "b\n".toList,
        "function estimateSessionPages() \x7b\n".toList, "\x7d\n".toList])[1]? ∧
     (kept_end (["a\n".toList, "b\n".toList,
        "function estimateSessionPages() \x7b\n".toList, "\x7d\n".toList]) 3).head? =
      (["a\n".toList, "b\n".toList,
        "function estimateSessionPages() \x7b\n".toList, "\x7d\n".toList])[3]? ∧
     (∀ i, i < 3 - 1 → (options_lines (["a\n".toList, "b\n".toList,
        "function estimateSessionPages() \x7b\n".toList, "\x7d\n".toList]) 1 3)[i]? =
      (["a\n".toList, "b\n".toList,
        "function estimateSessionPages() \x7b\n".toList, "\x7d\n".toList])[1 + i]?) ∧
     (kept_start (["a\n".toList, "b\n".toList,
        "function estimateSessionPages() \x7b\n".toList, "\x7d\n".toList]) 1).length = 1) := by
  refine ⟨?_, ?_⟩
  · exact (c6_boundary_ownership _ 2 1 3).1 (by decide)
  · exact (c6_boundary_ownership _ 2 1 3).2 (by omega) (by decide)

/-! ## Claim C1: partition totality -/

/-- C1 counterexample: the emitted segments of the canvas split do not
concatenate back to the document byte-for-byte.  On the one-line document
"function estimateSessionPages\n" the boundary resolves (to line 0), yet the
emitted first segment is the trailing-blank-normalised text "\n", so the
concatenation gains a byte. -/
theorem c1_counterexample :
    boundary_line (["function estimateSessionPages\n".toList]) = some 0 ∧
    joinAll (projection_lines (["function estimateSessionPages\n".toList]) 0 ++
             projector_lines (["function estimateSessionPages\n".toList]) 0) ≠
      joinAll (["function estimateSessionPages\n".toList]) := by
  constructor
  · decide
  · decide

/-- C1 (corrected): totality holds for the raw partition slices: the
untrimmed canvas slices, the three toolbar slices, and the seven consecutive
template-blueprint blocks each concatenate exactly back to the document.
The emitted segment text can differ from the raw slices (trailing-blank
normalisation in the canvas split, comment-tail truncation in the blueprint
media segment), so byte-for-byte reconstruction is guaranteed only before
those adjustments. -/
theorem c1_amended_raw_slices_total (lines all_lines : List (List Char))
    (b a t p1 p2 p3 p4 p5 p6 : Nat) :
    (projection_init lines b ++ projector_lines lines b = lines) ∧
    (a ≤ t → t ≤ lines.length →
      kept_start lines a ++ options_lines lines a t ++ kept_end lines t = lines) ∧
    (p1 ≤ p2 → p2 ≤ p3 → p3 ≤ p4 → p4 ≤ p5 → p5 ≤ p6 → p6 ≤ all_lines.length →
      extract_lines all_lines 0 p1 ++ extract_lines all_lines p1 p2 ++
      extract_lines all_lines p2 p3 ++ extract_lines all_lines p3 p4 ++
      extract_lines all_lines p4 p5 ++ extract_lines all_lines p5 p6 ++
      extract_lines all_lines p6 all_lines.length = joinAll all_lines) := by
  refine ⟨List.take_append_drop b lines, ?_, ?_⟩
  · intro hat ht
    show lines.take a ++ pySlice a t lines ++ lines.drop t = lines
    have e1 : lines.take a = pySlice 0 a lines := (pySlice_zero lines a).symm
    have e3 : lines.drop t = pySlice t lines.length lines := by
      unfold pySlice
      exact (List.take_of_length_le (by simp)).symm
    rw [e1, e3, List.append_assoc,
      pySlice_append lines a t lines.length hat ht,
      pySlice_append lines 0 a lines.length (Nat.zero_le a) (le_trans hat ht),
      pySlice_full]
  · intro h12 h23 h34 h45 h56 h6l
    have h01 : (0 : Nat) ≤ p1 := Nat.zero_le p1
    rw [List.append_assoc, List.append_assoc, List.append_assoc,
      List.append_assoc, List.append_assoc,
      extract_append all_lines p5 p6 all_lines.length h56 h6l,
      extract_append all_lines p4 p5 all_lines.length h45 (le_trans h56 h6l),
      extract_append all_lines p3 p4 all_lines.length h34
        (le_trans h45 (le_trans h56 h6l)),
      extract_append all_lines p2 p3 all_lines.length h23
        (le_trans h34 (le_trans h45 (le_trans h56 h6l))),
      extract_append all_lines p1 p2 all_lines.length h12
        (le_trans h23 (le_trans h34 (le_trans h45 (le_trans h56 h6l)))),
      extract_append all_lines 0 p1 all_lines.length h01
        (le_trans h12 (le_trans h23 (le_trans h34 (le_trans h45 (le_trans h56 h6l)))))]
    unfold extract_lines
    rw [pySlice_full]

/-- C1 amended-claim witness: raw-slice totality instantiated on concrete
documents — a three-line canvas document cut at 1, toolbar cuts 1 and 2, and
a two-line blueprint document with cut chain 0,1,1,2,2,2. -/
theorem c1_amended_raw_slices_total_witness :
    (projection_init (["a\n".toList, "b\n".toList, "c\n".toList]) 1 ++
      projector_lines (["a\n".toList, "b\n".toList, "c\n".toList]) 1 =
      (["a\n".toList, "b\n".toList, "c\n".toList])) ∧
    (kept_start (["a\n".toList, "b\n".toList, "c\n".toList]) 1 ++
      options_lines (["a\n".toList, "b\n".toList, "c\n".toList]) 1 2 ++
      kept_end (["a\n".toList, "b\n".toList, "c\n".toList]) 2 =
      (["a\n".toList, "b\n".toList, "c\n".toList])) ∧
    (extract_lines (["x\n".toList, "y\n".toList]) 0 0 ++
      extract_lines (["x\n".toList, "y\n".toList]) 0 1 ++
      extract_lines (["x\n".toList, "y\n".toList]) 1 1 ++
      extract_lines (["x\n".toList, "y\n".toList]) 1 2 ++
      extract_lines (["x\n".toList, "y\n".toList]) 2 2 ++
      extract_lines (["x\n".toList, "y\n".toList]) 2 2 ++
      extract_lines (["x\n".toList, "y\n".toList]) 2
        (["x\n".toList, "y\n".toList]).length =
      joinAll (["x\n".toList, "y\n".toList])) := by
  refine ⟨?_, ?_, ?_⟩
  · exact (c1_amended_raw_slices_total (["a\n".toList, "b\n".toList, "c\n".toList])
      (["x\n".toList, "y\n".toList]) 1 1 2 0 1 1 2 2 2).1
  · exact (c1_amended_raw_slices_total (["a\n".toList, "b\n".toList, "c\n".toList])
      (["x\n".toList, "y\n".toList]) 1 1 2 0 1 1 2 2 2).2.1 (by omega) (by decide)
  · exact (c1_amended_raw_slices_total (["a\n".toList, "b\n".toList, "c\n".toList])
      (["x\n".toList, "y\n".toList]) 1 1 2 0 1 1 2 2 2).2.2 (by omega) (by omega)
      (by omega) (by omega) (by omega) (by decide)

/-! ## Emitter: filesystem writes

Every script emits by `open(path, "w")` followed by `write`/`writelines`:
the destination is truncated and fully replaced.  The filesystem is modelled
as a partial map from paths to file contents. -/

/-- A filesystem: paths mapped to file contents. -/
abbrev FS : Type := List Char → Option (List Char)

/-- `open(path, "w"); f.write(content)`: truncate and replace. -/
def fsWrite (fs : FS) (p c : List Char) : FS :=
  fun q => if q = p then some c else fs q

/-- Emit a list of (destination, content) writes in order. -/
def emit (ws : List (List Char × List Char)) (fs : FS) : FS :=
  ws.foldl (fun f pc => fsWrite f pc.1 pc.2) fs

/-- The conditional write of update_nav_classes.py (lines 40-48): write the
rewritten content only when it differs from the file's current content. -/
def condWrite (fs : FS) (p c : List Char) : FS :=
  if fs p = some c then fs else fsWrite fs p c

/-- Emit with the conditional-write policy. -/
def emitCond (ws : List (List Char × List Char)) (fs : FS) : FS :=
  ws.foldl (fun f pc => condWrite f pc.1 pc.2) fs

/-- Content of the last write to `q` in `ws`, if any. -/
def lastVal (q : List Char) : List (List Char × List Char) → Option (List Char)
  | [] => none
  | pc :: ws => (lastVal q ws).elim (if q = pc.1 then some pc.2 else none) some

theorem emit_apply (ws : List (List Char × List Char)) (fs : FS) (q : List Char) :
    emit ws fs q = (lastVal q ws).elim (fs q) some := by
  induction ws generalizing fs with
  | nil => rfl
  | cons pc ws ih =>
    show emit ws (fsWrite fs pc.1 pc.2) q = _
    rw [ih]
    cases h : lastVal q ws with
    | some c => simp [lastVal, h]
    | none =>
      simp only [lastVal, h, Option.elim]
      by_cases hq : q = pc.1
      · simp [fsWrite, hq]
      · simp [fsWrite, hq]

theorem condWrite_eq_fsWrite (fs : FS) (p c : List Char) :
    condWrite fs p c = fsWrite fs p c := by
  funext q
  unfold condWrite fsWrite
  by_cases h : fs p = some c
  · rw [if_pos h]
    by_cases hq : q = p
    · subst hq
      rw [if_pos rfl]
      exact h
    · rw [if_neg hq]
  · rw [if_neg h]

/-- C8 (confirmed): running the emitter a second time with the same writes
produces the same filesystem — each destination holds the content of its
last write either way — and the conditional-write emitter of
update_nav_classes produces the same filesystem as the truncating emitter,
so with unchanged inputs every destination's bytes are identical on both
runs. -/
theorem c8_idempotent_emission (ws : List (List Char × List Char)) (fs : FS) :
    emit ws (emit ws fs) = emit ws fs ∧ emitCond ws fs = emit ws fs := by
  constructor
  · funext q
    rw [emit_apply, emit_apply]
    cases h : lastVal q ws with
    | some c => rfl
    | none => rfl
  · induction ws generalizing fs with
    | nil => rfl
    | cons pc ws ih =>
      show emitCond ws (condWrite fs pc.1 pc.2) = emit ws (fsWrite fs pc.1 pc.2)
      rw [condWrite_eq_fsWrite, ih]

/-! ## The canvas-projection script end to end

split-canvas-projection.py: locate the boundary (exit 1 when absent, before
any write), build both segments, write both files.  A failed run leaves the
filesystem untouched because `sys.exit(1)` happens before the `open(...,"w")`
calls. -/

/-- Destination path of the trimmed first segment (line 4 / line 49). -/
def canvasPath : List Char :=
  "/Users/benjaminjacklaubacher/Neptino/src/lib/curriculum/canvas-projection.ts".toList

/-- Destination path of the extracted projector (line 52). -/
def projectorPath : List Char :=
  "/Users/benjaminjacklaubacher/Neptino/src/lib/curriculum/canvas-lesson-projector.ts".toList

/-- Lines 34-44: the synthesized import header of the projector file. -/
def projector_header : List (List Char) := [
  "// Full canvas lesson projector extracted from canvas-projection.ts\n".toList,
  "import \x7b\n".toList,
  "  planLessonBodyLayout, estimateExpandedTaskCount,\n".toList,
  "  resolveEnabledBlocks, resolveTemplateFieldState,\n".toList,
  "  type RawCurriculumSessionRow, type RawScheduleGeneratedEntry, type LessonCanvasPageProjection,\n".toList,
  "\x7d from \"@/lib/curriculum/canvas-projection\"\n".toList,
  "import \x7b resolveTemplateSelection, type NormalizedTemplateConfig \x7d from \"@/lib/curriculum/template-source-of-truth\"\n".toList,
  "import type \x7b TemplateType, TemplateBlockType \x7d from \"@/lib/curriculum/template-blocks\"\n".toList,
  "\n".toList]

/-- Line 46: `projector_content = projector_header + projector_lines`. -/
def projector_content (lines : List (List Char)) (b : Nat) : List (List Char) :=
  projector_header ++ projector_lines lines b

/-- The whole script as a function from the document to either a fatal error
(`sys.exit(1)`, lines 16-18) or the ordered list of file writes
(lines 49-54). -/
def split_canvas_projection (lines : List (List Char)) :
    Except (List Char) (List (List Char × List Char)) :=
  match boundary_line lines with
  | none => .error ("ERROR: boundary not found".toList)
  | some b => .ok [(canvasPath, joinAll (projection_lines lines b)),
                   (projectorPath, joinAll (projector_content lines b))]

/-- Apply a script result to the filesystem: a fatal error writes nothing. -/
def runScript (r : Except (List Char) (List (List Char × List Char)))
    (fs : FS) : FS :=
  match r with
  | .error _ => fs
  | .ok ws => emit ws fs

/-! ## The update-route script

update-route.py: check the import anchor (exit 1 when absent), insert the
new imports after it (`str.replace` with count 1, line 25), check the
interfaces/utilities block (exit 1 when its regex matches nothing), remove
the block, and only then write the file. -/

/-- Line 4: the route file path. -/
def routePath : List Char :=
  "/Users/benjaminjacklaubacher/Neptino/src/app/api/generate-curriculum/route.ts".toList

/-- Line 21: the anchor line after which the new imports are inserted. -/
def old_anchor : List Char :=
  "import type \x7b GenerationAction \x7d from \"@/lib/curriculum/ai-generation-service\"\n".toList

/-- Lines 9-19: the inserted import block. -/
def new_imports : List Char :=
  ("import \x7b\n  repairJSON,\n  extractLessonsViaRegex,\n  extractModulesViaRegex,\n  cleanModelOutput,\n  fitToCount,\n  normalizeGeneratedLessons,\n\x7d from \"./generation-route-utils\"\nimport type \x7b GeneratedLesson, GeneratedModule \x7d from \"./generation-route-utils\"\n").toList

/-- The literal head of the removed block (line 28 of the script): the regex
starts with this fixed text. -/
def blockStartLit : List Char :=
  "\n/** Shape of each lesson in the generated curriculum */\n".toList

/-- The lookahead terminator of the removed block: `(?=\nconst
SYSTEM_PROMPT_BASE)` — matched but not consumed. -/
def blockEndLit : List Char :=
  "\nconst SYSTEM_PROMPT_BASE".toList

/-- Python `s.replace(pat, repl, 1)`: replace the leftmost occurrence only. -/
def replaceOnce (pat repl : List Char) : List Char → List Char
  | [] => []
  | c :: r =>
    if hasPre pat (c :: r) then repl ++ (c :: r).drop pat.length
    else c :: replaceOnce pat repl r

/-- Lines 28-34: `re.search(pattern, content, re.DOTALL)` followed by
`content[:match.start()] + content[match.end():]`.  The pattern is the
literal `blockStartLit`, a lazy `.*?`, and the `blockEndLit` lookahead, so
the match runs from the first occurrence of the start literal to the first
following occurrence of the terminator (which stays in the text). -/
def removeBlock (c : List Char) : Option (List Char) :=
  match idxOf blockStartLit c with
  | none => none
  | some i =>
    match idxOf blockEndLit ((c.drop i).drop blockStartLit.length) with
    | none => none
    | some j => some (c.take i ++ c.drop (i + blockStartLit.length + j))

/-- The whole update-route script: anchor check (lines 22-24), insertion
(line 25), block check (lines 29-32), removal (line 34), write (lines 36-37). -/
def update_route (content : List Char) :
    Except (List Char) (List (List Char × List Char)) :=
  if hasSub old_anchor content then
    match removeBlock (replaceOnce old_anchor (old_anchor ++ new_imports) content) with
    | some c2 => .ok [(routePath, c2)]
    | none => .error ("ERROR: block not found".toList)
  else .error ("ERROR: import anchor not found".toList)

/-! ## Claim C3: missing-boundary atomicity -/

/-- C3 (confirmed): when a required marker matches no line the run fails
with a fatal error — the canvas split when its boundary is absent, the
route update when its import anchor or its removal block is absent — and
the failed run performs no write at all: every destination file (indeed the
whole filesystem) is exactly as before. -/
theorem c3_missing_boundary_atomicity (lines : List (List Char))
    (content : List Char) (fs : FS) :
    (boundary_line lines = none →
      split_canvas_projection lines = .error ("ERROR: boundary not found".toList) ∧
      runScript (split_canvas_projection lines) fs = fs) ∧
    (hasSub old_anchor content = false →
      update_route content = .error ("ERROR: import anchor not found".toList) ∧
      runScript (update_route content) fs = fs) ∧
    (hasSub old_anchor content = true →
      removeBlock (replaceOnce old_anchor (old_anchor ++ new_imports) content) = none →
      update_route content = .error ("ERROR: block not found".toList) ∧
      runScript (update_route content) fs = fs) := by
  refine ⟨?_, ?_, ?_⟩
  · intro h
    unfold split_canvas_projection
    rw [h]
    exact ⟨rfl, rfl⟩
  · intro h
    unfold update_route
    rw [h]
    exact ⟨rfl, rfl⟩
  · intro h hb
    unfold update_route
    rw [h, hb]
    exact ⟨rfl, rfl⟩

set_option maxRecDepth 20000

/-- C3 witness: a document with no boundary line, a route file missing the
anchor line, and a route file that is exactly the anchor (so the
interfaces block is absent), each against a one-file filesystem. -/
theorem c3_missing_boundary_atomicity_witness :
    (split_canvas_projection (["const x = 1\n".toList]) =
        .error ("ERROR: boundary not found".toList) ∧
      runScript (split_canvas_projection (["const x = 1\n".toList]))
        (fun q => if q = canvasPath then some ("old".toList) else none) =
        (fun q => if q = canvasPath then some ("old".toList) else none)) ∧
    (update_route ("hello\n".toList) =
        .error ("ERROR: import anchor not found".toList) ∧
      runScript (update_route ("hello\n".toList))
        (fun q => if q = canvasPath then some ("old".toList) else none) =
        (fun q => if q = canvasPath then some ("old".toList) else none)) ∧
    (update_route old_anchor = .error ("ERROR: block not found".toList) ∧
      runScript (update_route old_anchor)
        (fun q => if q = canvasPath then some ("old".toList) else none) =
        (fun q => if q = canvasPath then some ("old".toList) else none)) := by
  refine ⟨?_, ?_, ?_⟩
  · exact (c3_missing_boundary_atomicity (["const x = 1\n".toList]) ("hello\n".toList)
      (fun q => if q = canvasPath then some ("old".toList) else none)).1 (by decide)
  · exact (c3_missing_boundary_atomicity (["const x = 1\n".toList]) ("hello\n".toList)
      (fun q => if q = canvasPath then some ("old".toList) else none)).2.1 (by decide)
  · exact (c3_missing_boundary_atomicity (["const x = 1\n".toList]) old_anchor
      (fun q => if q = canvasPath then some ("old".toList) else none)).2.2
      (by decide) (by decide)

/-! ## ReferenceRewriter: textual substitution engine

Python `str.replace` and the `re.sub` calls of the scripts all follow the
same discipline: scan left to right, at each position try the pattern; on a
match emit the replacement and continue after the matched text (the
replacement is not rescanned); otherwise keep the character and move on.
`scanRw` is that engine, driven by a matcher that returns the replacement
text and the remainder after the match.  Every matcher used here consumes at
least one character on success, so fuel `s.length + 1` never runs out; the
fuel only makes the recursion structural. -/

/-- One left-to-right rewrite pass.  `m s` returns `(out, rest)` when the
pattern matches at the head of `s`: `out` is emitted and scanning resumes at
`rest`. -/
def scanRw (m : List Char → Option (List Char × List Char)) :
    Nat → List Char → List Char
  | 0, s => s
  | _ + 1, [] => []
  | fuel + 1, s@(c :: r) =>
    match m s with
    | some (out, rest) => out ++ scanRw m fuel rest
    | none => c :: scanRw m fuel r

/-- Matcher for a literal pattern with a fixed replacement. -/
def litM (pat repl : List Char) (s : List Char) :
    Option (List Char × List Char) :=
  if hasPre pat s then some (repl, s.drop pat.length) else none

/-- Python `s.replace(pat, repl)` for a nonempty literal `pat`. -/
def pyReplace (pat repl s : List Char) : List Char :=
  scanRw (litM pat repl) (s.length + 1) s

theorem hasSub_append_left (pat s t : List Char) (h : hasSub pat s = true) :
    hasSub pat (s ++ t) = true := by
  induction s with
  | nil =>
    simp only [hasSub] at h
    cases pat with
    | nil => cases t with
      | nil => exact h
      | cons c r => simp [hasSub, hasPre]
    | cons p ps => simp [hasPre] at h
  | cons c r ih =>
    simp only [hasSub, Bool.or_eq_true] at h ⊢
    rcases h with h | h
    · left
      clear ih
      induction pat generalizing c r with
      | nil => simp [hasPre]
      | cons p ps ihp =>
        cases r with
        | nil =>
          simp only [hasPre, Bool.and_eq_true] at h
          cases ps with
          | nil => simpa [hasPre] using h
          | cons q qs => simp [hasPre] at h
        | cons c2 r2 =>
          simp only [List.cons_append, hasPre, Bool.and_eq_true] at h ⊢
          exact ⟨h.1, ihp c2 r2 h.2⟩
    · right
      exact ih h

theorem hasPre_self_append (pat t : List Char) : hasPre pat (pat ++ t) = true := by
  induction pat with
  | nil => simp [hasPre]
  | cons p ps ih => simp [hasPre, ih]

theorem hasSub_of_hasPre (pat s : List Char) (h : hasPre pat s = true) :
    hasSub pat s = true := by
  cases s with
  | nil => simpa [hasSub] using h
  | cons c r => simp [hasSub, h]

/-- If a nonempty literal pattern occurs in `s`, the replacement text occurs
in the rewritten output (the scan reaches the leftmost occurrence and emits
`repl` there). -/
theorem scanRw_lit_emits (pat repl : List Char) (hpat : pat ≠ []) :
    ∀ fuel s, s.length < fuel → hasSub pat s = true →
      hasSub repl (scanRw (litM pat repl) fuel s) = true := by
  intro fuel
  induction fuel with
  | zero => intro s hs; omega
  | succ f ih =>
    intro s hs hsub
    cases s with
    | nil =>
      simp only [hasSub] at hsub
      cases pat with
      | nil => exact absurd rfl hpat
      | cons p ps => simp [hasPre] at hsub
    | cons c r =>
      show hasSub repl (match litM pat repl (c :: r) with
        | some (out, rest) => out ++ scanRw (litM pat repl) f rest
        | none => c :: scanRw (litM pat repl) f r) = true
      unfold litM
      by_cases hp : hasPre pat (c :: r) = true
      · rw [if_pos hp]
        have hpp : hasPre repl repl = true := by
          have := hasPre_self_append repl []
          simpa using this
        exact hasSub_append_left repl repl _ (hasSub_of_hasPre repl repl hpp)
      · rw [if_neg hp]
        simp only [hasSub, Bool.or_eq_true] at hsub
        rcases hsub with h | h
        · exact absurd h hp
        · have hlen : r.length < f := by simp at hs; omega
          have hres := ih r hlen h
          simp only [hasSub, Bool.or_eq_true]
          exact Or.inr hres

/-! ## Claim C5: visibility promotion -/

/-- Lines 40-46 of split-toolbar.py: the synthesized header of
toolbar-options.tsx. -/
def optionsHeader : List Char :=
  ("\"use client\"\n\nimport \x7b useState \x7d from \"react\"\nimport type \x7b BuildTool, AnimateTool \x7d from \"../store/canvasStore\"\n\n").toList

/-- Line 49: the private definition text that is promoted. -/
def toolOptionsPat : List Char := "function ToolOptionsStrip(".toList

/-- Line 49: the exported replacement text. -/
def toolOptionsRepl : List Char := "export function ToolOptionsStrip(".toList

/-- Lines 40-49: `options_content = header + "".join(options_lines)` followed
by `options_content.replace("function ToolOptionsStrip(", "export function
ToolOptionsStrip(")`. -/
def options_content (lines : List (List Char)) (a t : Nat) : List Char :=
  pyReplace toolOptionsPat toolOptionsRepl
    (optionsHeader ++ joinAll (options_lines lines a t))

/-- A concrete canvas-projection document in which the symbol
`planLessonBodyLayout`, consumed by the extracted projector segment via the
synthesized import header, is privately scoped (declared without `export`). -/
def docPlanPrivate : List (List Char) := [
  "function planLessonBodyLayout() \x7b\n".toList,
  "\x7d\n".toList,
  "function estimateSessionPages() \x7b\n".toList,
  "\x7d\n".toList]

/-- C5 counterexample: the canvas split performs no visibility promotion at
all.  On `docPlanPrivate` the boundary resolves to line 2; the emitted
projector segment imports `planLessonBodyLayout` from the first segment, yet
the first segment still declares it as a plain (unexported) function — the
cross-referenced symbol remains unexported in the emitted output, so the
claimed promotion does not happen. -/
theorem c5_counterexample :
    boundary_line docPlanPrivate = some 2 ∧
    hasSub ("planLessonBodyLayout".toList)
      (joinAll (projector_content docPlanPrivate 2)) = true ∧
    hasSub ("function planLessonBodyLayout".toList)
      (joinAll (projection_lines docPlanPrivate 2)) = true ∧
    hasSub ("export function planLessonBodyLayout".toList)
      (joinAll (projection_lines docPlanPrivate 2)) = false := by
  refine ⟨by decide, by decide, by decide, by decide⟩

/-- C5 (corrected): promotion is performed only where a script hardcodes a
textual replacement.  The toolbar split does promote its cross-referenced
symbol: whenever the assembled options segment contains the private
definition text `function ToolOptionsStrip(`, the emitted segment contains
the exported form.  The canvas split performs no promotion (see the
counterexample), so promotion is not guaranteed for every cross-referenced
symbol. -/
theorem c5_amended_promotion (lines : List (List Char)) (a t : Nat)
    (h : hasSub toolOptionsPat
      (optionsHeader ++ joinAll (options_lines lines a t)) = true) :
    hasSub toolOptionsRepl (options_content lines a t) = true := by
  unfold options_content pyReplace
  exact scanRw_lit_emits toolOptionsPat toolOptionsRepl (by decide) _ _
    (by omega) h

/-- C5 amended-claim witness: a one-line document holding the private
`ToolOptionsStrip` definition; the emitted options segment contains the
exported form. -/
theorem c5_amended_promotion_witness :
    hasSub toolOptionsRepl
      (options_content (["function ToolOptionsStrip(props) \x7b\n".toList]) 0 1) = true := by
  exact c5_amended_promotion (["function ToolOptionsStrip(props) \x7b\n".toList]) 0 1
    (by decide)

/-! ## update_nav_classes.py: the navigation-class substitutions

`update_navigation_classes` (lines 7-52) reads an HTML file, applies six
regex substitutions in order, and writes the file back only when the result
differs from the original (lines 40-48), returning True exactly when it
wrote.  The `\w` class is modelled over the ASCII word characters the HTML
corpus uses. -/

/-- Regex `\w` (ASCII range). -/
def isWordChar (c : Char) : Bool := c.isAlpha || c.isDigit || c == '_'

/-- Matcher for line-18's regex `class="nav nav--(\w+)"` with replacement
`class="ul ul--\1"`: the literal head, a nonempty greedy word-character run,
and the closing quote. -/
def matchNavClass (s : List Char) : Option (List Char × List Char) :=
  if hasPre (("class=\"nav nav--").toList) s then
    let r1 := s.drop (("class=\"nav nav--").toList).length
    let w := r1.takeWhile isWordChar
    if w.isEmpty then none
    else if hasPre ['"'] (r1.drop w.length) then
      some ((("class=\"ul ul--").toList) ++ w ++ ['"'], (r1.drop w.length).drop 1)
    else none
  else none

/-- Line 18: `re.sub(r'class="nav nav--(\w+)"', r'class="ul ul--\1"', c)`. -/
def navSub1 (s : List Char) : List Char := scanRw matchNavClass (s.length + 1) s

/-- Lines 18-38: the six substitution rules of update_navigation_classes,
applied in source order. -/
def update_navigation_subs (content : List Char) : List Char :=
  let c1 := navSub1 content
  let c2 := pyReplace ("nav__item".toList) ("ul__item".toList) c1
  let c3 := pyReplace ("nav__link link\"".toList) ("link link--header\"".toList) c2
  let c4 := pyReplace ("nav__link link link--subtle".toList)
    ("link link--footer link--subtle".toList) c3
  let c5 := pyReplace ("nav__link\"".toList) ("link\"".toList) c4
  let c6 := pyReplace ("nav__brand".toList) ("brand".toList) c5
  let c7 := pyReplace ("nav__cta".toList) ("cta".toList) c6
  pyReplace ("\"nav nav--".toList) ("\"ul ul--".toList) c7

/-- Lines 7-52 of update_nav_classes.py as a filesystem transformer: read
the file (an unreadable path hits the except branch and returns False with
nothing written), substitute, and write back only when the content changed;
the Bool is the function's return value. -/
def update_navigation_classes (fs : FS) (path : List Char) : FS × Bool :=
  match fs path with
  | none => (fs, false)
  | some content =>
    let c := update_navigation_subs content
    if c ≠ content then (fsWrite fs path c, true) else (fs, false)

/-! ## Claim C9: no-op frame effect -/

/-- C9 (confirmed): the navigation-class updater writes the file back only
when the substitutions change the content.  When they are the identity on
the file's content the filesystem is left untouched (every path, not just
this one) and the function returns False; when they change it, the file is
replaced with the substituted content and the function returns True. -/
theorem c9_noop_frame (fs : FS) (path content : List Char)
    (hread : fs path = some content) :
    (update_navigation_subs content = content →
      update_navigation_classes fs path = (fs, false)) ∧
    (update_navigation_subs content ≠ content →
      update_navigation_classes fs path =
        (fsWrite fs path (update_navigation_subs content), true)) := by
  constructor
  · intro hid
    unfold update_navigation_classes
    rw [hread]
    simp [hid]
  · intro hne
    unfold update_navigation_classes
    rw [hread]
    simp [hne]

/-- C9 witness: a one-file filesystem whose HTML content contains none of
the navigation patterns; the updater leaves the filesystem untouched and
returns False. -/
theorem c9_noop_frame_witness :
    update_navigation_classes
      (fun q => if q = ("index.html".toList) then some ("<p>hello</p>\n".toList) else none)
      ("index.html".toList) =
      ((fun q => if q = ("index.html".toList) then some ("<p>hello</p>\n".toList) else none), false) := by
  exact (c9_noop_frame
    (fun q => if q = ("index.html".toList) then some ("<p>hello</p>\n".toList) else none)
    ("index.html".toList) ("<p>hello</p>\n".toList) (by decide)).1 (by decide)

/-! ## cleanup-html-simple.py: the markup cleanup filter

`clean_html_structure_simple` (lines 6-59) applies seven regex substitutions
and then re-flows indentation.  Each regex is deterministic on its input
(the character classes exclude the characters of the following literal, so
greedy matching with backtracking reduces to maximal spans followed by
literals); the matchers below implement exactly those matches. -/

/-- Match a literal at the head and return the remainder. -/
def afterLit (lit s : List Char) : Option (List Char) :=
  if hasPre lit s then some (s.drop lit.length) else none

/-- Matcher for `<div[^>]*>\s*</div>` (line 13) and `<span[^>]*>\s*</span>`
(line 14), with empty replacement. -/
def matchEmptyTag (openLit closeLit : List Char) (s : List Char) :
    Option (List Char × List Char) :=
  match afterLit openLit s with
  | none => none
  | some r1 =>
    match afterLit ['>'] (r1.dropWhile (fun c => !(c == '>'))) with
    | none => none
    | some r2 =>
      match afterLit closeLit (r2.dropWhile pyIsSpace) with
      | none => none
      | some rest => some ([], rest)

/-- Matcher for `<div[^>]*>\s*<!--[^>]*-->\s*</div>` (line 17): the comment
body is the maximal `[^>]*` span, which must end in `--` with `>` following. -/
def matchCommentDiv (s : List Char) : Option (List Char × List Char) :=
  match afterLit ("<div".toList) s with
  | none => none
  | some r1 =>
  match afterLit ['>'] (r1.dropWhile (fun c => !(c == '>'))) with
  | none => none
  | some r2 =>
  match afterLit ("<!--".toList) (r2.dropWhile pyIsSpace) with
  | none => none
  | some r3 =>
    let u := r3.takeWhile (fun c => !(c == '>'))
    if hasSuf ("--".toList) u then
      match afterLit ['>'] (r3.drop u.length) with
      | none => none
      | some r4 =>
        match afterLit ("</div>".toList) (r4.dropWhile pyIsSpace) with
        | none => none
        | some rest => some ([], rest)
    else none

/-- Matcher for `</div>\s*<div[^>]*>\s*<a` with replacement `<a` (line 20). -/
def matchDivA (s : List Char) : Option (List Char × List Char) :=
  match afterLit ("</div>".toList) s with
  | none => none
  | some r1 =>
  match afterLit ("<div".toList) (r1.dropWhile pyIsSpace) with
  | none => none
  | some r2 =>
  match afterLit ['>'] (r2.dropWhile (fun c => !(c == '>'))) with
  | none => none
  | some r3 =>
  match afterLit ("<a".toList) (r3.dropWhile pyIsSpace) with
  | none => none
  | some rest => some (("<a").toList, rest)

/-- Matcher for `</a>\s*</nav>` with replacement "</a>\n</nav>" (line 21). -/
def matchANav (s : List Char) : Option (List Char × List Char) :=
  match afterLit ("</a>".toList) s with
  | none => none
  | some r1 =>
  match afterLit ("</nav>".toList) (r1.dropWhile pyIsSpace) with
  | none => none
  | some rest => some (("</a>\n</nav>").toList, rest)

/-- Matcher for `\n\s*\n\s*\n+` with replacement "\n\n" (line 24): greedy
backtracking makes the match run from a newline through the last newline of
the maximal whitespace run, provided that run holds at least three newlines. -/
def matchTripleNl (s : List Char) : Option (List Char × List Char) :=
  match s with
  | '\n' :: _ =>
    let run := s.takeWhile pyIsSpace
    if 3 ≤ run.count '\n' then
      some (("\n\n").toList,
        (run.reverse.takeWhile (fun c => !(c == '\n'))).reverse ++ s.drop run.length)
    else none
  | _ => none

/-- Matcher for `'  +'` (two or more spaces) with replacement "  " (line 25). -/
def matchDblSpace (s : List Char) : Option (List Char × List Char) :=
  match s with
  | ' ' :: ' ' :: _ =>
    some (("  ").toList, s.drop (s.takeWhile (fun c => c == ' ')).length)
  | _ => none

/-- One full `re.sub` pass with matcher `m`. -/
def applySub (m : List Char → Option (List Char × List Char))
    (s : List Char) : List Char :=
  scanRw m (s.length + 1) s

/-! ### The indentation re-flow (lines 27-51) -/

/-- Python `content.split('\n')`. -/
def splitOnNl : List Char → List (List Char)
  | [] => [[]]
  | c :: r =>
    if c == '\n' then [] :: splitOnNl r
    else
      match splitOnNl r with
      | [] => [[c]]
      | h :: t => (c :: h) :: t

/-- Python `'\n'.join(lines)`. -/
def joinNl : List (List Char) → List Char
  | [] => []
  | [l] => l
  | l :: ls => l ++ '\n' :: joinNl ls

/-- Python `'  ' * indent_level`. -/
def indentSpaces (n : Nat) : List Char := List.replicate (2 * n) ' '

/-- Line 48: the void tags that do not increase the indent level. -/
def voidTags : List (List Char) :=
  [("input").toList, ("img").toList, ("br").toList,
   ("hr").toList, ("meta").toList, ("link").toList]

/-- Lines 45-49: a stripped line increases the indent level when it opens a
non-void tag: starts with `<` but not `</`, `<!`, does not end with `/>`,
and its first token's tag name is not a void tag. -/
def incCond (s : List Char) : Bool :=
  hasPre ['<'] s && !hasPre ("</".toList) s && !hasSuf ("/>".toList) s &&
    !hasPre ("<!".toList) s &&
    !(voidTags.contains
      (((s.takeWhile (fun c => !pyIsSpace c)).drop 1).takeWhile (fun c => !(c == '>'))))

/-- Lines 32-49: the indentation loop.  Blank lines are emitted empty; a
line starting with `</` first decrements the level (floored at 0, Python
`max(0, level - 1)`); the line is emitted at the resulting level; an opening
line then increments the level for its successors. -/
def fixLines : Nat → List (List Char) → List (List Char)
  | _, [] => []
  | lvl, l :: ls =>
    let s := pyStrip l
    if s.isEmpty then [] :: fixLines lvl ls
    else
      let lvl1 := if hasPre ("</".toList) s then lvl - 1 else lvl
      let lvl2 := if incCond s then lvl1 + 1 else lvl1
      (indentSpaces lvl1 ++ s) :: fixLines lvl2 ls

/-- Lines 28-51: split, re-indent, join. -/
def fixIndentation (content : List Char) : List Char :=
  joinNl (fixLines 0 (splitOnNl content))

/-- Lines 6-59: the whole cleanup filter `clean(markup_text) -> markup_text`
(file I/O elided; the script writes the result back unconditionally). -/
def clean_html_structure_simple (content : List Char) : List Char :=
  let c1 := applySub (matchEmptyTag ("<div".toList) ("</div>".toList)) content
  let c2 := applySub (matchEmptyTag ("<span".toList) ("</span>".toList)) c1
  let c3 := applySub matchCommentDiv c2
  let c4 := applySub matchDivA c3
  let c5 := applySub matchANav c4
  let c6 := applySub matchTripleNl c5
  let c7 := applySub matchDblSpace c6
  fixIndentation c7

/-! ### Idempotence facts for the indentation re-flow -/

theorem dropWhile_idem (p : Char → Bool) (l : List Char) :
    (l.dropWhile p).dropWhile p = l.dropWhile p := by
  induction l with
  | nil => rfl
  | cons c r ih =>
    rw [List.dropWhile_cons]
    by_cases h : p c = true
    · rw [if_pos h]
      exact ih
    · rw [if_neg h, List.dropWhile_cons, if_neg h]

theorem dropWhile_head_false (p : Char → Bool) (l : List Char) (c : Char)
    (r : List Char) (h : List.dropWhile p l = l) (he : l = c :: r) :
    p c = false := by
  subst he
  rw [List.dropWhile_cons] at h
  by_cases hc : p c = true
  · rw [if_pos hc] at h
    have h2 := congrArg List.length h
    simp at h2
    have hl := (List.dropWhile_sublist p (l := r)).length_le
    omega
  · simpa using hc

theorem rstripWs_decomp (y : List Char) :
    y = rstripWs y ++ (y.reverse.takeWhile pyIsSpace).reverse := by
  unfold rstripWs
  conv_lhs => rw [← List.reverse_reverse y,
    ← List.takeWhile_append_dropWhile pyIsSpace y.reverse]
  rw [List.reverse_append]

theorem lstripWs_rstripWs (y : List Char) (hy : lstripWs y = y) :
    lstripWs (rstripWs y) = rstripWs y := by
  cases hr : rstripWs y with
  | nil => rfl
  | cons c r =>
    have hdec := rstripWs_decomp y
    rw [hr] at hdec
    have hc : pyIsSpace c = false :=
      dropWhile_head_false pyIsSpace y c
        (r ++ (y.reverse.takeWhile pyIsSpace).reverse) hy
        (hdec.trans (List.cons_append c r _))
    unfold lstripWs
    rw [List.dropWhile_cons, if_neg (by simp [hc])]

theorem rstripWs_idem (y : List Char) : rstripWs (rstripWs y) = rstripWs y := by
  unfold rstripWs
  rw [List.reverse_reverse, dropWhile_idem]

theorem lstripWs_idem (l : List Char) : lstripWs (lstripWs l) = lstripWs l :=
  dropWhile_idem pyIsSpace l

theorem pyStrip_idem (l : List Char) : pyStrip (pyStrip l) = pyStrip l := by
  unfold pyStrip
  rw [lstripWs_rstripWs (lstripWs l) (lstripWs_idem l), rstripWs_idem]

theorem dropWhile_replicate_space (k : Nat) (s : List Char) :
    List.dropWhile pyIsSpace (List.replicate k ' ' ++ s) =
      List.dropWhile pyIsSpace s := by
  induction k with
  | zero => rfl
  | succ n ih =>
    rw [List.replicate_succ, List.cons_append, List.dropWhile_cons,
      if_pos (by decide)]
    exact ih

theorem pyStrip_indent (n : Nat) (s : List Char) :
    pyStrip (indentSpaces n ++ s) = pyStrip s := by
  unfold pyStrip lstripWs indentSpaces
  rw [dropWhile_replicate_space]

theorem mem_of_mem_pyStrip (c : Char) (l : List Char) (h : c ∈ pyStrip l) :
    c ∈ l := by
  unfold pyStrip rstripWs lstripWs at h
  rw [List.mem_reverse] at h
  have h1 := (List.dropWhile_sublist pyIsSpace).mem h
  rw [List.mem_reverse] at h1
  exact (List.dropWhile_sublist pyIsSpace).mem h1

theorem splitOnNl_ne_nil (s : List Char) : splitOnNl s ≠ [] := by
  cases s with
  | nil => simp [splitOnNl]
  | cons c r =>
    unfold splitOnNl
    by_cases h : (c == '\n') = true
    · rw [if_pos h]
      simp
    · rw [if_neg h]
      cases hs : splitOnNl r with
      | nil => simp
      | cons hh tt => simp

theorem splitOnNl_no_newline (s : List Char) :
    ∀ l ∈ splitOnNl s, '\n' ∉ l := by
  induction s with
  | nil =>
    intro l hl
    simp [splitOnNl] at hl
    subst hl
    simp
  | cons c r ih =>
    intro l hl
    unfold splitOnNl at hl
    by_cases h : (c == '\n') = true
    · rw [if_pos h] at hl
      rcases List.mem_cons.mp hl with h1 | h1
      · subst h1
        simp
      · exact ih l h1
    · rw [if_neg h] at hl
      cases hs : splitOnNl r with
      | nil => exact absurd hs (splitOnNl_ne_nil r)
      | cons hh tt =>
        rw [hs] at hl
        rcases List.mem_cons.mp hl with h1 | h1
        · subst h1
          intro hmem
          rcases List.mem_cons.mp hmem with h2 | h2
          · exact h (by simp [h2.symm])
          · exact ih hh (hs ▸ List.mem_cons_self hh tt) h2
        · exact ih l (by rw [hs]; exact List.mem_cons.mpr (Or.inr h1))

theorem splitOnNl_append (l s : List Char) (hnl : '\n' ∉ l)
    (h : List Char) (t : List (List Char)) (hs : splitOnNl s = h :: t) :
    splitOnNl (l ++ s) = (l ++ h) :: t := by
  induction l with
  | nil => simpa using hs
  | cons c l' ih =>
    have hc : ¬((c == '\n') = true) := by
      intro hb
      exact hnl (List.mem_cons.mpr (Or.inl (by simpa using (beq_iff_eq.mp hb).symm)))
    have ihv := ih (fun hm => hnl (List.mem_cons.mpr (Or.inr hm)))
    show splitOnNl (c :: (l' ++ s)) = ((c :: l') ++ h) :: t
    unfold splitOnNl
    rw [if_neg hc, ihv]
    rfl

theorem splitOnNl_joinNl (out : List (List Char)) (hne : out ≠ [])
    (hnl : ∀ l ∈ out, '\n' ∉ l) : splitOnNl (joinNl out) = out := by
  induction out with
  | nil => exact absurd rfl hne
  | cons l ls ih =>
    cases ls with
    | nil =>
      show splitOnNl (joinNl [l]) = [l]
      have hj : joinNl [l] = l ++ [] := by simp [joinNl]
      rw [hj]
      have := splitOnNl_append l [] (hnl l (List.mem_cons_self l [])) [] [] rfl
      simpa using this
    | cons l2 rest =>
      have hjoin : joinNl (l :: l2 :: rest) = l ++ '\n' :: joinNl (l2 :: rest) := rfl
      rw [hjoin]
      have ihv := ih (by simp) (fun x hx => hnl x (List.mem_cons.mpr (Or.inr hx)))
      have hs : splitOnNl ('\n' :: joinNl (l2 :: rest)) =
          [] :: (l2 :: rest) := by
        unfold splitOnNl
        rw [if_pos (by decide), ihv]
      have := splitOnNl_append l ('\n' :: joinNl (l2 :: rest))
        (hnl l (List.mem_cons_self l _)) [] (l2 :: rest) hs
      simpa using this

theorem fixLines_ne_nil (lvl : Nat) (ls : List (List Char)) (h : ls ≠ []) :
    fixLines lvl ls ≠ [] := by
  cases ls with
  | nil => exact absurd rfl h
  | cons l ls =>
    unfold fixLines
    by_cases hs : (pyStrip l).isEmpty = true
    · rw [if_pos hs]
      simp
    · rw [if_neg hs]
      simp

theorem fixLines_no_newline (lvl : Nat) (ls : List (List Char))
    (h : ∀ l ∈ ls, '\n' ∉ l) : ∀ e ∈ fixLines lvl ls, '\n' ∉ e := by
  induction ls generalizing lvl with
  | nil =>
    intro e he
    simp [fixLines] at he
  | cons l ls ih =>
    intro e he
    unfold fixLines at he
    by_cases hs : (pyStrip l).isEmpty = true
    · rw [if_pos hs] at he
      rcases List.mem_cons.mp he with h1 | h1
      · subst h1
        simp
      · exact ih lvl (fun x hx => h x (List.mem_cons.mpr (Or.inr hx))) e h1
    · rw [if_neg hs] at he
      rcases List.mem_cons.mp he with h1 | h1
      · subst h1
        intro hm
        rcases List.mem_append.mp hm with h2 | h2
        · unfold indentSpaces at h2
          rw [List.mem_replicate] at h2
          exact absurd h2.2 (by decide)
        · exact h l (List.mem_cons_self l ls) (mem_of_mem_pyStrip '\n' l h2)
      · exact ih _ (fun x hx => h x (List.mem_cons.mpr (Or.inr hx))) e h1

theorem fixLines_cons_blank (lvl : Nat) (l : List Char) (ls : List (List Char))
    (hs : (pyStrip l).isEmpty = true) :
    fixLines lvl (l :: ls) = [] :: fixLines lvl ls := by
  simp only [fixLines]
  rw [if_pos hs]

theorem fixLines_cons_line (lvl : Nat) (l : List Char) (ls : List (List Char))
    (hs : ¬(pyStrip l).isEmpty = true) :
    fixLines lvl (l :: ls) =
      (indentSpaces (if hasPre ("</".toList) (pyStrip l) then lvl - 1 else lvl)
          ++ pyStrip l) ::
        fixLines (if incCond (pyStrip l)
          then (if hasPre ("</".toList) (pyStrip l) then lvl - 1 else lvl) + 1
          else (if hasPre ("</".toList) (pyStrip l) then lvl - 1 else lvl)) ls := by
  simp only [fixLines]
  rw [if_neg hs]

theorem fixLines_idem (ls : List (List Char)) :
    ∀ lvl, fixLines lvl (fixLines lvl ls) = fixLines lvl ls := by
  induction ls with
  | nil => intro lvl; rfl
  | cons l ls ih =>
    intro lvl
    by_cases hs : (pyStrip l).isEmpty = true
    · rw [fixLines_cons_blank lvl l ls hs,
        fixLines_cons_blank lvl [] (fixLines lvl ls) (by decide), ih lvl]
    · rw [fixLines_cons_line lvl l ls hs]
      have hstr : pyStrip (indentSpaces
          (if hasPre ("</".toList) (pyStrip l) then lvl - 1 else lvl) ++ pyStrip l) =
          pyStrip l := by
        rw [pyStrip_indent, pyStrip_idem]
      rw [fixLines_cons_line _ _ _ (by rw [hstr]; exact hs), hstr, ih]

/-! ## Claim C4: markup-cleanup idempotence -/

/-- C4 counterexample: the cleanup filter is not idempotent.  On nested
empty divs a single pass removes only the innermost wrapper (the regex scan
does not revisit text before a replacement), leaving a now-empty outer
wrapper that only a second pass removes: cleaning
"<div>\n<div>\n</div>\n</div>" yields "<div>\n\n</div>", and cleaning that
yields "", so clean(clean(x)) differs from clean(x). -/
theorem c4_counterexample :
    clean_html_structure_simple (clean_html_structure_simple
        (("<div>\n<div>\n</div>\n</div>").toList)) ≠
      clean_html_structure_simple (("<div>\n<div>\n</div>\n</div>").toList) := by
  decide

/-- C4 (corrected): the cleanup filter as a whole is not idempotent — each
pass removes only the innermost empty wrappers, so nested empty wrappers
take one pass per nesting level (see the counterexample).  Its final
indentation re-flow stage, by contrast, is idempotent on every input:
re-indenting an already re-indented text is the identity, because the
emitted lines strip back to the very stripped lines that drove the level
computation. -/
theorem c4_amended_indent_reflow_idem (content : List Char) :
    fixIndentation (fixIndentation content) = fixIndentation content := by
  unfold fixIndentation
  have h1 : splitOnNl (joinNl (fixLines 0 (splitOnNl content))) =
      fixLines 0 (splitOnNl content) :=
    splitOnNl_joinNl _ (fixLines_ne_nil 0 _ (splitOnNl_ne_nil content))
      (fixLines_no_newline 0 _ (splitOnNl_no_newline content))
  rw [h1, fixLines_idem]

/-! ## rebuild-isced-data.py: the classification hierarchy

`main` (lines 41-88) filters the CSV rows to canonical 2/3/4-digit codes,
keeps the first-seen label per code (`dict.setdefault`), selects broad codes
(length 2), narrow codes (length 3 whose 2-digit prefix is a known code) and
detailed codes (length 4 whose 3-digit prefix is a known code), and nests
them by string-prefix into domains/subjects/topics.  The embedding starts
from the filtered `items` list of (code, label) pairs; Python's sorted key
iteration is modelled as sorting the deduplicated key list (the iteration
order of the dict does not matter after `sorted`).  `slugify`'s NFKD /
ascii-ignore step is modelled for ASCII input, on which NFKD is the
identity; non-ASCII characters are dropped, as `encode("ascii", "ignore")`
drops them. -/

/-- After lowering, the characters `slugify` keeps: `[a-z0-9]`. -/
def slugOk (c : Char) : Bool := ('a' ≤ c && c ≤ 'z') || ('0' ≤ c && c ≤ '9')

mutual

/-- `re.sub(r"[^a-z0-9]+", "-", text)`: each maximal run of other
characters becomes one dash. -/
def slugSub : List Char → List Char
  | [] => []
  | c :: r => if slugOk c then c :: slugSub r else '-' :: slugSkip r

/-- Inside a run of bad characters. -/
def slugSkip : List Char → List Char
  | [] => []
  | c :: r => if slugOk c then c :: slugSub r else slugSkip r

end

mutual

/-- `re.sub(r"-+", "-", text)`. -/
def collapseDashes : List Char → List Char
  | [] => []
  | c :: r => if c == '-' then '-' :: dashSkip r else c :: collapseDashes r

/-- Inside a run of dashes. -/
def dashSkip : List Char → List Char
  | [] => []
  | c :: r => if c == '-' then dashSkip r else c :: collapseDashes r

end

/-- Python `text.strip("-")`. -/
def stripDashes (l : List Char) : List Char :=
  ((l.dropWhile (fun c => c == '-')).reverse.dropWhile (fun c => c == '-')).reverse

/-- Lines 26-30: `slugify`. -/
def slugify (text : List Char) : List Char :=
  let t1 := (text.filter (fun c => c.toNat < 128)).map Char.toLower
  let t2 := collapseDashes (stripDashes (slugSub t1))
  if t2.isEmpty then ("item").toList else t2

/-- Lines 33-38: the `value` field of `node(code, label)`:
`f"{code}-{slugify(label)}"`. -/
def nodeValue (code label : List Char) : List Char :=
  code ++ ('-' :: slugify label)

/-- Lexicographic string comparison (Python string `<` on code points). -/
def lexLe : List Char → List Char → Bool
  | [], _ => true
  | _ :: _, [] => false
  | a :: as_, b :: bs => if a = b then lexLe as_ bs else decide (a < b)

/-- Python `sorted`. -/
def sortLex (l : List (List Char)) : List (List Char) :=
  List.insertionSort (fun a b => lexLe a b = true) l

/-- Lines 59-61: first-seen label per code (`labels.setdefault`). -/
def lookupFirst (code : List Char) :
    List (List Char × List Char) → Option (List Char)
  | [] => none
  | (c, l) :: r => if c = code then some l else lookupFirst code r

/-- `labels[c]` (total on the codes that occur). -/
def labGet (items : List (List Char × List Char)) (c : List Char) : List Char :=
  (lookupFirst c items).getD []

/-- Line 63: `broad_codes = sorted([c for c in labels if len(c) == 2])`. -/
def broad_codes (items : List (List Char × List Char)) : List (List Char) :=
  sortLex (((items.map Prod.fst).dedup).filter (fun c => c.length == 2))

/-- Line 64: narrow codes are length 3 with their 2-digit prefix known. -/
def narrow_codes (items : List (List Char × List Char)) : List (List Char) :=
  sortLex (((items.map Prod.fst).dedup).filter
    (fun c => c.length == 3 && (lookupFirst (c.take 2) items).isSome))

/-- Line 65: detailed codes are length 4 with their 3-digit prefix known. -/
def detailed_codes (items : List (List Char × List Char)) : List (List Char) :=
  sortLex (((items.map Prod.fst).dedup).filter
    (fun c => c.length == 4 && (lookupFirst (c.take 3) items).isSome))

/-- Line 76: the fixed "Other" subtopic under each detailed code. -/
structure SubtopicNode where
  value : List Char
  label : List Char
  code : List Char
deriving DecidableEq, Inhabited

/-- A detailed field (4-digit code) with its subtopics. -/
structure TopicNode where
  value : List Char
  label : List Char
  code : List Char
  subtopics : List SubtopicNode
deriving DecidableEq, Inhabited

/-- A narrow field (3-digit code) with its topics. -/
structure SubjectNode where
  value : List Char
  label : List Char
  code : List Char
  topics : List TopicNode
deriving DecidableEq, Inhabited

/-- A broad field (2-digit code) with its subjects. -/
structure DomainNode where
  value : List Char
  label : List Char
  code : List Char
  subjects : List SubjectNode
deriving DecidableEq, Inhabited

/-- Line 76: `{"value": f"{dc}-other", "label": "Other", "code": f"{dc}-other"}`. -/
def otherSubtopic (dc : List Char) : SubtopicNode :=
  { value := dc ++ ("-other").toList, label := ("Other").toList,
    code := dc ++ ("-other").toList }

/-- Lines 74-77: a detailed node. -/
def buildTopic (items : List (List Char × List Char)) (dc : List Char) :
    TopicNode :=
  { value := nodeValue dc (labGet items dc), label := labGet items dc,
    code := dc, subtopics := [otherSubtopic dc] }

/-- Lines 71-79: a narrow node with the detailed codes that extend it. -/
def buildSubject (items : List (List Char × List Char)) (nc : List Char) :
    SubjectNode :=
  { value := nodeValue nc (labGet items nc), label := labGet items nc,
    code := nc,
    topics := ((detailed_codes items).filter
      (fun dc => hasPre nc dc)).map (buildTopic items) }

/-- Lines 68-81: a broad node with the narrow codes that extend it. -/
def buildDomain (items : List (List Char × List Char)) (bc : List Char) :
    DomainNode :=
  { value := nodeValue bc (labGet items bc), label := labGet items bc,
    code := bc,
    subjects := ((narrow_codes items).filter
      (fun nc => hasPre bc nc)).map (buildSubject items) }

/-- Lines 67-83: `{"domains": domains}`. -/
def buildDomains (items : List (List Char × List Char)) : List DomainNode :=
  (broad_codes items).map (buildDomain items)

/-! ### Hierarchy lemmas -/

theorem take_of_hasPre (p : List Char) : ∀ s, hasPre p s = true →
    s.take p.length = p := by
  induction p with
  | nil => intro s _; rfl
  | cons a as ih =>
    intro s h
    cases s with
    | nil => simp [hasPre] at h
    | cons b bs =>
      simp only [hasPre, Bool.and_eq_true, beq_iff_eq] at h
      obtain ⟨hab, hpre⟩ := h
      subst hab
      simp only [List.length_cons, List.take_succ_cons]
      rw [ih bs hpre]

theorem mem_broad (items : List (List Char × List Char)) (bc : List Char)
    (h : bc ∈ broad_codes items) : bc.length = 2 := by
  unfold broad_codes sortLex at h
  rw [List.mem_insertionSort, List.mem_filter] at h
  simpa using h.2

theorem mem_narrow (items : List (List Char × List Char)) (nc : List Char)
    (h : nc ∈ narrow_codes items) :
    nc.length = 3 ∧ (lookupFirst (nc.take 2) items).isSome = true := by
  unfold narrow_codes sortLex at h
  rw [List.mem_insertionSort, List.mem_filter] at h
  simpa using h.2

theorem mem_detailed (items : List (List Char × List Char)) (dc : List Char)
    (h : dc ∈ detailed_codes items) :
    dc.length = 4 ∧ (lookupFirst (dc.take 3) items).isSome = true := by
  unfold detailed_codes sortLex at h
  rw [List.mem_insertionSort, List.mem_filter] at h
  simpa using h.2

theorem buildDomains_shape (items : List (List Char × List Char)) :
    ∀ d ∈ buildDomains items, ∀ s ∈ d.subjects,
      s.code ∈ narrow_codes items ∧ s.code.take 2 = d.code ∧
      ∀ t ∈ s.topics, t.code ∈ detailed_codes items ∧ t.code.take 3 = s.code := by
  intro d hd s hs
  unfold buildDomains at hd
  rw [List.mem_map] at hd
  obtain ⟨bc, hbc, rfl⟩ := hd
  simp only [buildDomain] at hs
  rw [List.mem_map] at hs
  obtain ⟨nc, hnc, rfl⟩ := hs
  rw [List.mem_filter] at hnc
  obtain ⟨hnarrow, hprebc⟩ := hnc
  have hbclen := mem_broad items bc hbc
  have hnclen := (mem_narrow items nc hnarrow).1
  refine ⟨by simpa [buildSubject] using hnarrow, ?_, ?_⟩
  · show (buildSubject items nc).code.take 2 = (buildDomain items bc).code
    simp only [buildSubject, buildDomain]
    rw [← hbclen]
    exact take_of_hasPre bc nc hprebc
  · intro t ht
    simp only [buildSubject] at ht
    rw [List.mem_map] at ht
    obtain ⟨dc, hdc, rfl⟩ := ht
    rw [List.mem_filter] at hdc
    obtain ⟨hdet, hprenc⟩ := hdc
    refine ⟨by simpa [buildTopic] using hdet, ?_⟩
    show (buildTopic items dc).code.take 3 = (buildSubject items nc).code
    simp only [buildTopic, buildSubject]
    rw [← hnclen]
    exact take_of_hasPre nc dc hprenc

/-! ## Claim C10: hierarchy closure -/

/-- C10 (confirmed): in the rebuilt hierarchy, every emitted subject has a
3-digit code whose 2-digit prefix is exactly its enclosing domain's code,
and every emitted topic has a 4-digit code whose 3-digit prefix is exactly
its enclosing subject's code; a length-3 code whose 2-digit prefix is
unknown among the filtered rows never appears as a subject code, and a
length-4 code whose 3-digit prefix is unknown never appears as a topic
code. -/
theorem c10_hierarchy_closure (items : List (List Char × List Char)) :
    (∀ d ∈ buildDomains items, ∀ s ∈ d.subjects,
      s.code.length = 3 ∧ s.code.take 2 = d.code ∧
      ∀ t ∈ s.topics, t.code.length = 4 ∧ t.code.take 3 = s.code) ∧
    (∀ c, c.length = 3 → lookupFirst (c.take 2) items = none →
      ∀ d ∈ buildDomains items, ∀ s ∈ d.subjects, s.code ≠ c) ∧
    (∀ c, c.length = 4 → lookupFirst (c.take 3) items = none →
      ∀ d ∈ buildDomains items, ∀ s ∈ d.subjects, ∀ t ∈ s.topics,
        t.code ≠ c) := by
  refine ⟨?_, ?_, ?_⟩
  · intro d hd s hs
    obtain ⟨hnarrow, htake, htop⟩ := buildDomains_shape items d hd s hs
    refine ⟨(mem_narrow items s.code hnarrow).1, htake, ?_⟩
    intro t ht
    obtain ⟨hdet, htake3⟩ := htop t ht
    exact ⟨(mem_detailed items t.code hdet).1, htake3⟩
  · intro c _ hnone d hd s hs hcode
    obtain ⟨hnarrow, -, -⟩ := buildDomains_shape items d hd s hs
    rw [hcode] at hnarrow
    have := (mem_narrow items c hnarrow).2
    rw [hnone] at this
    simp at this
  · intro c _ hnone d hd s hs t ht hcode
    obtain ⟨-, -, htop⟩ := buildDomains_shape items d hd s hs
    obtain ⟨hdet, -⟩ := htop t ht
    rw [hcode] at hdet
    have := (mem_detailed items c hdet).2
    rw [hnone] at this
    simp at this

/-- A concrete filtered row set: one broad field, one narrow, one detailed,
plus an orphan length-3 code whose 2-digit prefix is absent. -/
def iscedItemsExample : List (List Char × List Char) :=
  [(("01").toList, ("Education").toList),
   (("011").toList, ("General").toList),
   (("0111").toList, ("Science").toList),
   (("990").toList, ("Orphan").toList)]

/-- C10 witness: on the concrete row set, the first emitted subject's code
prefixes to its domain's code, the first topic's code prefixes to its
subject's code, and the orphan code is not the emitted subject's code. -/
theorem c10_hierarchy_closure_witness :
    (buildDomains iscedItemsExample).headI.subjects.headI.code.take 2 =
      (buildDomains iscedItemsExample).headI.code ∧
    (buildDomains iscedItemsExample).headI.subjects.headI.topics.headI.code.take 3 =
      (buildDomains iscedItemsExample).headI.subjects.headI.code ∧
    (buildDomains iscedItemsExample).headI.subjects.headI.code ≠ ("990").toList := by
  refine ⟨?_, ?_, ?_⟩
  · exact ((c10_hierarchy_closure iscedItemsExample).1
      ((buildDomains iscedItemsExample).headI) (by decide)
      ((buildDomains iscedItemsExample).headI.subjects.headI) (by decide)).2.1
  · exact (((c10_hierarchy_closure iscedItemsExample).1
      ((buildDomains iscedItemsExample).headI) (by decide)
      ((buildDomains iscedItemsExample).headI.subjects.headI) (by decide)).2.2
      ((buildDomains iscedItemsExample).headI.subjects.headI.topics.headI)
      (by decide)).2
  · exact (c10_hierarchy_closure iscedItemsExample).2.1 (("990").toList)
      (by decide) (by decide)
      ((buildDomains iscedItemsExample).headI) (by decide)
      ((buildDomains iscedItemsExample).headI.subjects.headI) (by decide)
